import Mathlib

/-!
Verification development for the Multi-Agent Orchestration System repository
(a customer-support workflow: five specialized stages driven by an
orchestrator, observed by a React dashboard over a WebSocket channel).

The embedding below follows the repository's TypeScript sources where they
exist (frontend type declarations, API client, WebSocket client, dashboard
update handler, workflow canvas).  The backend orchestrator itself is not
part of the source tree; the definitions that stand in for it are marked
"Modelled from the spec" and follow the specification's §4 algorithm text.

Monetary amounts, latencies and confidence scores are embedded as rationals
(the sources use IEEE doubles only for display arithmetic; every property
checked here is exact arithmetic on these fields).
-/

namespace MultiAgent

/-! ## Data model from `frontend/src/types.ts` -/

/-- Status union of the per-stage record `AgentStatus.status` in `types.ts`:
`'idle' | 'running' | 'completed' | 'failed'`. -/
inductive AgentStatusValue
  | idle
  | running
  | completed
  | failed
deriving DecidableEq, Repr

/-- Enumeration of the values of `AgentStatusValue`, in declaration order of
the union type in `types.ts`. -/
def agentStatusValues : List AgentStatusValue :=
  [.idle, .running, .completed, .failed]

/-- Status union of the per-stage event `WebSocketUpdate.status` in
`types.ts`: `'running' | 'completed' | 'failed'`. -/
inductive WsStatus
  | running
  | completed
  | failed
deriving DecidableEq, Repr

/-- Enumeration of the values of `WsStatus`, in declaration order of the
union type in `types.ts`. -/
def wsStatusValues : List WsStatus :=
  [.running, .completed, .failed]

/-- Stage status vocabulary of the specification (§3 "Stage Status"):
{Pending, Running, Completed, Failed, Skipped}. -/
inductive StageStatus
  | pending
  | running
  | completed
  | failed
  | skipped
deriving DecidableEq, Repr

/-- Reading of a per-stage record status in the specification's vocabulary
(`idle` is the record's rendering of a stage that has not started). -/
def agentStatusToSpec : AgentStatusValue → StageStatus
  | .idle => .pending
  | .running => .running
  | .completed => .completed
  | .failed => .failed

/-- Reading of a per-stage event status in the specification's vocabulary. -/
def wsStatusToSpec : WsStatus → StageStatus
  | .running => .running
  | .completed => .completed
  | .failed => .failed

/-- Structure `AgentStepResult` from `types.ts`. -/
structure AgentStepResult where
  agent : String
  output : String
  reasoning : String
  confidence : ℚ
  cost_usd : ℚ
  latency_ms : ℚ
  tokens_used : Nat
deriving DecidableEq, Repr

/-- Structure `WorkflowMetrics` from `types.ts`. -/
structure WorkflowMetrics where
  total_cost_usd : ℚ
  total_latency_ms : ℚ
  total_tokens : Nat
  avg_confidence : ℚ
  agents_used : Nat
  workflow_duration_ms : ℚ
deriving DecidableEq, Repr

/-- Structure `QAReview` from `types.ts` (recommendation kept as a string of
the union `'APPROVE' | 'REVISE' | 'REJECT'`). -/
structure QAReview where
  accuracy_score : ℚ
  tone_score : ℚ
  completeness_score : ℚ
  clarity_score : ℚ
  overall_score : ℚ
  strengths : List String
  improvements : List String
  recommendation : String
  reasoning : String
  confidence : ℚ
deriving DecidableEq, Repr

/-- Structure `WorkflowResult` from `types.ts`: the full terminal snapshot of
one workflow instance as declared at the public interface. -/
structure WorkflowResult where
  workflow_id : String
  status : String
  user_input : String
  category : Option String
  urgency : Option String
  final_output : String
  qa_review : Option QAReview
  steps : List AgentStepResult
  metrics : WorkflowMetrics
  timestamp : String
deriving DecidableEq, Repr

/-- Structure `WebSocketUpdate` from `types.ts`.  The source's free-form
`data?: any` is only ever read as `update.data?.result` by the dashboard, so
it is embedded directly as that optional step result. -/
structure WebSocketUpdate where
  workflow_id : String
  agent : String
  status : WsStatus
  data : Option AgentStepResult
  timestamp : Nat
deriving DecidableEq, Repr

/-- Structure `AgentStatus` from `types.ts` (per-stage record shown on the
workflow canvas). -/
structure AgentStatus where
  name : String
  status : AgentStatusValue
  result : Option AgentStepResult
deriving DecidableEq, Repr

/-! ## Dashboard update handler from `DashboardPage.tsx` (lines 34-49) -/

/-- State kept by `DashboardPage`: the per-agent status map and the
execution log of received updates. -/
structure DashboardState where
  agentStatuses : String → Option AgentStatus
  updates : List WebSocketUpdate

/-- Initial `agentStatuses` map of `DashboardPage.tsx` (lines 15-21). -/
def initialAgentStatuses : String → Option AgentStatus := fun k =>
  if k = "classifier" then some { name := "Classifier", status := .idle, result := none }
  else if k = "researcher" then some { name := "Researcher", status := .idle, result := none }
  else if k = "validator" then some { name := "Validator", status := .idle, result := none }
  else if k = "writer" then some { name := "Writer", status := .idle, result := none }
  else if k = "qa" then some { name := "QA", status := .idle, result := none }
  else none

/-- Lower-casing as invoked by `update.agent.toLowerCase()` in
`DashboardPage.tsx` (character-wise lower-casing, embedded structurally so
that it computes by kernel reduction). -/
def lowerCase (s : String) : String := ⟨s.data.map Char.toLower⟩

/-- Direct injection of an event status into a record status (the source
assigns `status: update.status` with no translation). -/
def wsStatusToValue : WsStatus → AgentStatusValue
  | .running => .running
  | .completed => .completed
  | .failed => .failed

/-- Handler for one incoming WebSocket update, from `DashboardPage.tsx`
lines 34-49: the update is always appended to the execution log; when the
agent field is not the sentinel `"workflow"`, the status-map entry keyed by
the lower-cased agent name is replaced. -/
def processUpdate (s : DashboardState) (u : WebSocketUpdate) : DashboardState :=
  let appended := s.updates ++ [u]
  if u.agent = "workflow" then
    { s with updates := appended }
  else
    { updates := appended
      agentStatuses := fun k =>
        if k = lowerCase u.agent then
          some { name := u.agent, status := wsStatusToValue u.status, result := u.data }
        else s.agentStatuses k }

/-! ## WebSocket reconnection policy from `services/api.ts`
(`WorkflowWebSocket`, lines 77-133) -/

/-- Field `maxReconnectAttempts = 5` of `WorkflowWebSocket`. -/
def maxReconnectAttempts : Nat := 5

/-- Field `reconnectDelay = 1000` (milliseconds) of `WorkflowWebSocket`. -/
def reconnectDelay : Nat := 1000

/-- Method `attemptReconnect` of `WorkflowWebSocket`: when the attempt
counter is below the maximum it is incremented and a reconnect is scheduled
after `reconnectDelay * (new counter)` milliseconds; otherwise nothing is
scheduled.  The result is the new counter paired with the scheduled delay,
or `none` when reconnection has stopped. -/
def attemptReconnect (reconnectAttempts : Nat) : Option (Nat × Nat) :=
  if reconnectAttempts < maxReconnectAttempts then
    some (reconnectAttempts + 1, reconnectDelay * (reconnectAttempts + 1))
  else
    none

/-- Connection lifecycle events seen by the client. -/
inductive WsEvent
  | opened
  | closed
deriving DecidableEq, Repr

/-- One step of the client's counter state machine: `onopen` resets the
counter to 0 (api.ts line 94); `onclose` calls `attemptReconnect`
(api.ts line 115).  Returns the new counter and the scheduled delay, if
any. -/
def wsStep (reconnectAttempts : Nat) : WsEvent → Nat × Option Nat
  | .opened => (0, none)
  | .closed =>
    match attemptReconnect reconnectAttempts with
    | some (a, d) => (a, some d)
    | none => (reconnectAttempts, none)

/-- Number of reconnects actually scheduled over `k` consecutive close
events starting from a given attempt counter. -/
def countReconnects : Nat → Nat → Nat
  | _, 0 => 0
  | a, k + 1 =>
    match attemptReconnect a with
    | some (a2, _) => 1 + countReconnects a2 k
    | none => countReconnects a k

/-! ## HTTP client from `services/api.ts` (`workflowApi`) -/

/-- Abstract HTTP request issued by the axios client in `services/api.ts`:
method, path under the API base URL, and the JSON body or query parameters
as key-value pairs. -/
structure ApiRequest where
  method : String
  path : String
  params : List (String × String)
deriving DecidableEq, Repr

/-- Default workflow type of `executeWorkflow`
(`workflowType: string = 'customer_support'` in api.ts line 20). -/
def defaultWorkflowType : String := "customer_support"

/-- Request built by `workflowApi.executeWorkflow` (api.ts lines 20-26):
POST `/workflow/execute` with body `{user_input, workflow_type}`. -/
def executeWorkflowRequest (userInput workflowType : String) : ApiRequest :=
  { method := "POST"
    path := "/workflow/execute"
    params := [("user_input", userInput), ("workflow_type", workflowType)] }

/-- Client call `workflowApi.executeWorkflow`: the backend is abstracted as
a function from requests to terminal snapshots; the client returns
`response.data` whole, typed `WorkflowResult` (api.ts line 25). -/
def executeWorkflow (backend : ApiRequest → WorkflowResult)
    (userInput workflowType : String) : WorkflowResult :=
  backend (executeWorkflowRequest userInput workflowType)

/-- Request built by `workflowApi.getWorkflow` (api.ts lines 31-34): GET
`/workflows/{id}`. -/
def getWorkflowRequest (workflowId : String) : ApiRequest :=
  { method := "GET", path := "/workflows/" ++ workflowId, params := [] }

/-- Client call `workflowApi.getWorkflow`: fetches one workflow instance by
its id and returns the backend's snapshot whole. -/
def getWorkflow (backend : ApiRequest → WorkflowResult)
    (workflowId : String) : WorkflowResult :=
  backend (getWorkflowRequest workflowId)

/-- Optional filter parameters accepted by `workflowApi.listWorkflows`
(api.ts lines 39-44): `limit`, `offset`, `category`, `status`. -/
structure ListWorkflowsParams where
  limit : Option Nat
  offset : Option Nat
  category : Option String
  status : Option String
deriving DecidableEq, Repr

/-- Names of the query parameters `listWorkflows` can send, exactly as
declared in its signature in api.ts. -/
def listWorkflowsParamNames : List String :=
  ["limit", "offset", "category", "status"]

/-- Request built by `workflowApi.listWorkflows` (api.ts lines 39-47): GET
`/workflows` with exactly the provided filters as query parameters. -/
def listWorkflowsRequest (p : ListWorkflowsParams) : ApiRequest :=
  { method := "GET"
    path := "/workflows"
    params :=
      (p.limit.map fun n => ("limit", toString n)).toList ++
      (p.offset.map fun n => ("offset", toString n)).toList ++
      (p.category.map fun c => ("category", c)).toList ++
      (p.status.map fun s => ("status", s)).toList }

/-! ## Stage graph, validation, orchestrator, metrics, publisher

The backend orchestration engine is not part of the source tree (only its
frontend callers and type declarations are), so the definitions in this
section are modelled from the spec, following §3, §4.1, §4.3, §4.4 and
§4.5. -/

/-- Modelled from the spec: §3 "Stage Definition" — a declarative stage,
i.e. a unique name plus the names of its upstream dependencies.  The opaque
execution capability is supplied separately, as an outcome oracle. -/
structure StageDef where
  name : String
  deps : List String
deriving DecidableEq, Repr

/-- Modelled from the spec: §7 error taxonomy — `GraphError`, fatal at graph
construction (duplicated name, dependency naming no stage, cycle). -/
inductive GraphError
  | duplicateName (n : String)
  | unknownDependency (stage dep : String)
  | cycleDetected
deriving DecidableEq, Repr

/-- First element of the list that occurs again later in it, if any. -/
def findDup : List String → Option String
  | [] => none
  | n :: rest => if rest.contains n then some n else findDup rest

/-- First (stage, dependency) pair whose dependency names no stage of the
list, if any. -/
def findUnknown (defs : List StageDef) : Option (String × String) :=
  defs.findSome? fun s =>
    (s.deps.find? fun d => !(defs.any fun t => t.name == d)).map fun d =>
      (s.name, d)

/-- Topological elimination: repeatedly remove a stage whose dependencies
have all been removed already; succeeds exactly when the whole list can be
eliminated, i.e. when the dependency graph is acyclic. -/
def topoCheck : List String → List StageDef → Nat → Bool
  | _, [], _ => true
  | _, _ :: _, 0 => false
  | done, pending, fuel + 1 =>
    match pending.find? (fun s => s.deps.all fun d => done.contains d) with
    | none => false
    | some s => topoCheck (s.name :: done) (pending.erase s) fuel

/-- Modelled from the spec: §4.1 — validation of a declarative stage list:
fails with a `GraphError` on a duplicated name, on a dependency referencing
an unknown stage name, or on a cycle. -/
def validate (defs : List StageDef) : Option GraphError :=
  match findDup (defs.map (·.name)) with
  | some n => some (.duplicateName n)
  | none =>
    match findUnknown defs with
    | some (s, d) => some (.unknownDependency s d)
    | none =>
      if topoCheck [] defs defs.length then none else some .cycleDetected

/-- Modelled from the spec: §4.1 and §8 — graph construction registers the
declared stages only when validation passes; on a validation failure the
registry is returned unchanged together with the `GraphError` (no partial
registration). -/
def buildGraph (registry : List StageDef) (defs : List StageDef) :
    List StageDef × Option GraphError :=
  match validate defs with
  | some e => (registry, some e)
  | none => (registry ++ defs, none)

/-- Dependency step `DepStep defs a b`: some stage of `defs` named `a`
declares the dependency `b`. -/
def DepStep (defs : List StageDef) (a b : String) : Prop :=
  ∃ s ∈ defs, s.name = a ∧ b ∈ s.deps

/-- A dependency cycle in `defs`: a nonempty chain of stage names, each
depending on the next, whose last element depends back on the first. -/
def IsDepCycle (defs : List StageDef) : List String → Prop
  | [] => False
  | n :: rest =>
      List.Chain (DepStep defs) n rest ∧
        DepStep defs ((n :: rest).getLast (List.cons_ne_nil n rest)) n

/-- The declarative stage list contains a dependency cycle. -/
def HasCycle (defs : List StageDef) : Prop :=
  ∃ cyc, IsDepCycle defs cyc

/-- Some stage's dependency references a name no stage of the list bears. -/
def HasUnknownDep (defs : List StageDef) : Prop :=
  ∃ s ∈ defs, ∃ d ∈ s.deps, ∀ t ∈ defs, t.name ≠ d

/-- A set of names on which topological elimination must get stuck:
nonempty, and every name in it belongs to a stage whose dependencies reach
back into the set. -/
def StuckSet (defs : List StageDef) (cyc : List String) : Prop :=
  cyc ≠ [] ∧ ∀ n ∈ cyc, ∃ s ∈ defs, s.name = n ∧ ∃ d ∈ s.deps, d ∈ cyc

/-- Modelled from the spec: §3 "Stage Result" — a successful stage's
output, confidence and metrics. -/
structure StageResult where
  output : String
  confidence : ℚ
  cost_usd : ℚ
  latency_ms : ℚ
  tokens_used : Nat
deriving DecidableEq, Repr

/-- A stage launch recorded by the scheduler: the launched stage's name
together with the status each of its declared dependencies had at the
moment of the launch. -/
structure LaunchEvent where
  stage : String
  depStatuses : List (String × StageStatus)
deriving DecidableEq, Repr

/-- Modelled from the spec: §4.1 and §4.3 step 2 — the ready set, i.e. the
stages that are themselves Pending and whose dependencies are all
Completed. -/
def readySet (g : List StageDef) (st : String → StageStatus) :
    List StageDef :=
  g.filter fun s =>
    decide (st s.name = .pending) &&
      s.deps.all fun d => decide (st d = .completed)

/-- Names of the stages directly depending on one of the given names. -/
def directDependents (g : List StageDef) (ns : List String) : List String :=
  (g.filter fun s => s.deps.any fun d => ns.contains d).map (·.name)

/-- Fuelled transitive closure of `directDependents`. -/
def dependentsClosure (g : List StageDef) : Nat → List String → List String
  | 0, ns => ns
  | fuel + 1, ns => dependentsClosure g fuel (ns ++ directDependents g ns).dedup

/-- Modelled from the spec: §3 "Workflow Instance" — the orchestrator's run
state: per-stage status, the workflow context of recorded results, and the
log of launches. -/
structure RunState where
  status : String → StageStatus
  ctx : List (String × StageResult)
  launches : List LaunchEvent

/-- Resolution of the launched stages of one round: a launched stage
becomes Completed when the outcome oracle yields a result and Failed
otherwise; every other stage keeps its status. -/
def resolveStatus (oracle : String → Option StageResult)
    (rdy : List StageDef) (st : String → StageStatus) :
    String → StageStatus := fun n =>
  if rdy.any (fun s => s.name == n) then
    match oracle n with
    | some _ => .completed
    | none => .failed
  else st n

/-- Marking of the still-Pending stages of the skip set as Skipped. -/
def applySkips (skips : List String) (st : String → StageStatus) :
    String → StageStatus := fun n =>
  if skips.contains n ∧ st n = .pending then .skipped else st n

/-- Modelled from the spec: §4.3 steps 3-4 — one scheduling round: every
stage of the given ready set is launched (recording the dependency statuses
seen at launch); each launched stage is resolved through the outcome
oracle — on success its result is recorded into the context and it is
marked Completed, on failure it is marked Failed — and every still-Pending
transitive dependent of a failed stage is marked Skipped. -/
def runRound (g : List StageDef) (oracle : String → Option StageResult)
    (st : RunState) (rdy : List StageDef) : RunState :=
  let launched := rdy.map fun s =>
    LaunchEvent.mk s.name (s.deps.map fun d => (d, st.status d))
  let newResults := rdy.filterMap fun s =>
    (oracle s.name).map fun r => (s.name, r)
  let failedNames := (rdy.filter fun s => (oracle s.name).isNone).map (·.name)
  let skips := dependentsClosure g g.length failedNames
  { status := applySkips skips (resolveStatus oracle rdy st.status)
    ctx := st.ctx ++ newResults
    launches := st.launches ++ launched }

/-- Modelled from the spec: §4.3 steps 2 and 5 — the scheduling loop:
while the ready set is nonempty, run a round; the fuel bounds the number of
rounds. -/
def runRounds (g : List StageDef) (oracle : String → Option StageResult) :
    Nat → RunState → RunState
  | 0, st => st
  | fuel + 1, st =>
    match readySet g st.status with
    | [] => st
    | s :: rest => runRounds g oracle fuel (runRound g oracle st (s :: rest))

/-- Initial per-stage status: every stage Pending. -/
def initStatus : String → StageStatus := fun _ => .pending

/-- Modelled from the spec: §4.3 — one whole orchestration run of a
workflow instance with an empty context (at most one stage completes per
round per dependency chain, so `g.length + 1` rounds always suffice). -/
def execute (g : List StageDef) (oracle : String → Option StageResult) :
    RunState :=
  runRounds g oracle (g.length + 1) { status := initStatus, ctx := [], launches := [] }

/-- Modelled from the spec: §4.4 "Metrics Aggregator" output — sums of
cost, latency and tokens, the arithmetic mean of confidence, and the count
of stages folded. -/
structure AggregateTotals where
  total_cost_usd : ℚ
  total_latency_ms : ℚ
  total_tokens : Nat
  avg_confidence : ℚ
  agents_used : Nat
deriving DecidableEq, Repr

/-- Modelled from the spec: §4.4 — fold of the completed stages' results
into totals and the arithmetic confidence mean. -/
def foldMetrics (results : List StageResult) : AggregateTotals :=
  { total_cost_usd := (results.map (·.cost_usd)).sum
    total_latency_ms := (results.map (·.latency_ms)).sum
    total_tokens := (results.map (·.tokens_used)).sum
    avg_confidence :=
      if results.length = 0 then 0
      else (results.map (·.confidence)).sum / results.length
    agents_used := results.length }

/-- Workflow-level metrics of a run: the aggregator folded over exactly the
results recorded in the instance context. -/
def runMetrics (g : List StageDef) (oracle : String → Option StageResult) :
    AggregateTotals :=
  foldMetrics ((execute g oracle).ctx.map (·.2))

/-- Modelled from the spec: §4.1 — the designated terminal stage whose
result becomes the workflow's final output (the QA stage). -/
def terminalStage : String := "qa"

/-- Modelled from the spec: §4.3 step 6 — on completion of every stage the
terminal stage's recorded output is extracted as the instance's final
output; otherwise no final output is produced. -/
def finalOutput (g : List StageDef) (oracle : String → Option StageResult) :
    Option String :=
  let st := execute g oracle
  if g.all fun s => decide (st.status s.name = .completed) then
    (st.ctx.lookup terminalStage).map (·.output)
  else none

/-! ## The five-stage workflow graph from `WorkflowCanvas.tsx` -/

/-- Node ids of `WorkflowCanvas.tsx` (lines 62-73). -/
def canvasNodes : List String :=
  ["classifier", "researcher", "validator", "writer", "qa"]

/-- Edges e1-e5 of `WorkflowCanvas.tsx` (lines 75-81), as
(source, target) pairs. -/
def canvasEdges : List (String × String) :=
  [("classifier", "researcher"), ("classifier", "validator"),
   ("researcher", "writer"), ("validator", "writer"), ("writer", "qa")]

/-- Dependencies of a node as induced by the canvas edge list: the sources
of its incoming edges. -/
def canvasDeps (n : String) : List String :=
  (canvasEdges.filter fun e => e.2 == n).map (·.1)

/-- The workflow's declarative stage list: the five stages with the
dependency structure drawn by the canvas (spec scenario A:
C → {R, V} → W → Q). -/
def workflowGraph : List StageDef :=
  [⟨"classifier", []⟩, ⟨"researcher", ["classifier"]⟩,
   ⟨"validator", ["classifier"]⟩, ⟨"writer", ["researcher", "validator"]⟩,
   ⟨"qa", ["writer"]⟩]

/-- All-success outcome oracle for a demonstration run of the workflow. -/
def demoOracle : String → Option StageResult := fun n =>
  if n = "classifier" then some ⟨"classified", 19/20, 1/1000, 120, 50⟩
  else if n = "researcher" then some ⟨"researched", 9/10, 1/100, 200, 80⟩
  else if n = "validator" then some ⟨"validated", 4/5, 1/200, 150, 60⟩
  else if n = "writer" then some ⟨"drafted", 17/20, 1/50, 400, 300⟩
  else if n = "qa" then some ⟨"final qa answer", 19/20, 1/100, 250, 120⟩
  else none

/-- Stage results of the four dependent stages of scenario A, carrying the
spec's confidences 0.9, 0.8, 0.85 and 0.95. -/
def demoAResults : List StageResult :=
  [⟨"researched", 9/10, 1/100, 200, 80⟩,
   ⟨"validated", 4/5, 1/200, 150, 60⟩,
   ⟨"drafted", 17/20, 1/50, 400, 300⟩,
   ⟨"final qa answer", 19/20, 1/100, 250, 120⟩]

/-- A cyclic declarative stage list (a depends on b, b depends on a). -/
def cyclicDefs : List StageDef :=
  [⟨"a", ["b"]⟩, ⟨"b", ["a"]⟩]

/-- A nonempty pre-existing registry used to exercise graph construction. -/
def demoRegistry : List StageDef :=
  [⟨"existing", []⟩]

/-! ## Event publisher and query interface (for the real-time channel) -/

/-- Modelled from the spec: §3 "Event" — one published lifecycle event. -/
structure EventMsg where
  workflow_id : String
  agent : String
  status : WsStatus
  timestamp : Nat
deriving DecidableEq, Repr

/-- Modelled from the spec: §4.5 and §6 — publisher-side state: the
globally ordered list of already-published events and the store of
terminal instance snapshots; no replay buffer exists. -/
structure PublisherState where
  trace : List EventMsg
  store : List (String × WorkflowResult)

/-- Modelled from the spec: §4.5 and §6 "Real-time channel" — a subscriber
that connects when `t` events have already been published receives, for its
workflow id, exactly the matching events published from position `t` on;
nothing earlier is replayed. -/
def receivedFrom (trace : List EventMsg) (wid : String) (t : Nat) :
    List EventMsg :=
  (trace.drop t).filter fun e => e.workflow_id == wid

/-- Modelled from the spec: §6 "Query interface" — fetching an instance by
id reads the store of instance snapshots, independently of the event
channel. -/
def queryInstance (ps : PublisherState) (wid : String) :
    Option WorkflowResult :=
  ps.store.lookup wid

/-- A short published-event history: workflow `wf-1` ran to completion
before position 2; a later workflow `wf-2` starts afterwards. -/
def demoTrace : List EventMsg :=
  [⟨"wf-1", "classifier", .running, 1⟩, ⟨"wf-1", "workflow", .completed, 2⟩,
   ⟨"wf-2", "classifier", .running, 3⟩]

/-- Scheduler invariant: every recorded launch snapshot shows Completed for
every declared dependency of the launched stage. -/
def LaunchInv (st : RunState) : Prop :=
  ∀ ev ∈ st.launches, ∀ p ∈ ev.depStatuses, p.2 = StageStatus.completed

/-- Scheduler invariant: the workflow context records exactly the stages
whose status is Completed. -/
def CtxInv (st : RunState) : Prop :=
  (∀ p ∈ st.ctx, st.status p.1 = StageStatus.completed) ∧
  (∀ n, st.status n = StageStatus.completed → ∃ r, (n, r) ∈ st.ctx)

end MultiAgent

namespace MultiAgent

/-! ## Theorems -/

/-- Helper: the counter never exceeds the maximum, so from counter `a` at
most `maxReconnectAttempts - a` further reconnects are ever scheduled. -/
lemma countReconnects_eq (k a : Nat) :
    countReconnects a k = min k (maxReconnectAttempts - a) := by
  induction k generalizing a with
  | zero => simp [countReconnects]
  | succ k ih =>
    by_cases h : a < maxReconnectAttempts
    · have hsub : maxReconnectAttempts - a = (maxReconnectAttempts - (a + 1)) + 1 := by
        omega
      simp only [countReconnects, attemptReconnect, if_pos h, ih (a + 1), hsub]
      omega
    · have hz : maxReconnectAttempts - a = 0 := by omega
      simp only [countReconnects, attemptReconnect, if_neg h, ih a, hz]
      omega

/-- C10: after a WebSocket disconnect the client makes at most 5
reconnection attempts; the n-th attempt is scheduled after a delay of
n × 1000 milliseconds; once the counter has reached 5 a further disconnect
schedules nothing; a successful connection resets the counter to 0. -/
theorem c10_reconnect_policy :
    (∀ n, n < maxReconnectAttempts →
      attemptReconnect n = some (n + 1, reconnectDelay * (n + 1))) ∧
    (∀ n, maxReconnectAttempts ≤ n → attemptReconnect n = none) ∧
    (∀ k, countReconnects 0 k = min k maxReconnectAttempts) ∧
    (∀ a, wsStep a .opened = (0, none)) := by
  refine ⟨fun n h => ?_, fun n h => ?_, fun k => ?_, fun a => rfl⟩
  · simp [attemptReconnect, h]
  · simp [attemptReconnect, Nat.not_lt.mpr h]
  · simpa using countReconnects_eq k 0

/-- Concrete instantiation of `c10_reconnect_policy`: the 4th attempt is
delayed 4000 ms, the counter value 7 schedules nothing, and 9 disconnects
in a row yield only 5 scheduled reconnects. -/
theorem c10_reconnect_policy_witness :
    (3 < maxReconnectAttempts ∧
      attemptReconnect 3 = some (3 + 1, reconnectDelay * (3 + 1))) ∧
    (maxReconnectAttempts ≤ 7 ∧ attemptReconnect 7 = none) ∧
    countReconnects 0 9 = min 9 maxReconnectAttempts :=
  ⟨⟨by decide, c10_reconnect_policy.1 3 (by decide)⟩,
   ⟨by decide, c10_reconnect_policy.2.1 7 (by decide)⟩,
   c10_reconnect_policy.2.2.1 9⟩

/-- C9: processing a WebSocket update whose agent field is the sentinel
`"workflow"` leaves every entry of the per-agent status map unchanged and
only appends the update to the execution log; for any other agent name only
the entry keyed by the lower-cased agent name is modified — every other key
is unchanged — and the update is likewise appended to the log. -/
theorem c9_status_map_frame (s : DashboardState) (u : WebSocketUpdate) :
    (processUpdate s u).updates = s.updates ++ [u] ∧
    (u.agent = "workflow" →
      ∀ k, (processUpdate s u).agentStatuses k = s.agentStatuses k) ∧
    (u.agent ≠ "workflow" →
      ∀ k, k ≠ lowerCase u.agent →
        (processUpdate s u).agentStatuses k = s.agentStatuses k) := by
  refine ⟨?_, fun hw k => ?_, fun hw k hk => ?_⟩
  · by_cases hw : u.agent = "workflow" <;> simp [processUpdate, hw]
  · simp [processUpdate, hw]
  · simp [processUpdate, hw, hk]

/-- Concrete instantiation of `c9_status_map_frame`: a `"Writer"` update on
the initial dashboard state touches neither the `"qa"` entry nor the
execution-log prefix, and a `"workflow"` update leaves `"writer"` alone. -/
theorem c9_status_map_frame_witness :
    ((processUpdate ⟨initialAgentStatuses, []⟩
        ⟨"wf-1", "Writer", .running, none, 7⟩).updates
      = [] ++ [⟨"wf-1", "Writer", .running, none, 7⟩]) ∧
    ((⟨"wf-1", "workflow", .completed, none, 9⟩ : WebSocketUpdate).agent = "workflow" ∧
      (processUpdate ⟨initialAgentStatuses, []⟩
          ⟨"wf-1", "workflow", .completed, none, 9⟩).agentStatuses "writer"
        = initialAgentStatuses "writer") ∧
    ((⟨"wf-1", "Writer", .running, none, 7⟩ : WebSocketUpdate).agent ≠ "workflow" ∧
      ("qa" : String) ≠ lowerCase "Writer" ∧
      (processUpdate ⟨initialAgentStatuses, []⟩
          ⟨"wf-1", "Writer", .running, none, 7⟩).agentStatuses "qa"
        = initialAgentStatuses "qa") :=
  ⟨(c9_status_map_frame ⟨initialAgentStatuses, []⟩
      ⟨"wf-1", "Writer", .running, none, 7⟩).1,
   ⟨by decide,
    (c9_status_map_frame ⟨initialAgentStatuses, []⟩
        ⟨"wf-1", "workflow", .completed, none, 9⟩).2.1 (by decide) "writer"⟩,
   ⟨by decide, by decide,
    (c9_status_map_frame ⟨initialAgentStatuses, []⟩
        ⟨"wf-1", "Writer", .running, none, 7⟩).2.2 (by decide) "qa" (by decide)⟩⟩

/-- C3, counterexample: the claim asserts the Skipped value is reachable at
the public interface, but the interface's declared status vocabularies — the
per-stage record union and the per-stage event union of `types.ts` — contain
no value that reads as Skipped. -/
theorem c3_skipped_unobservable_cex :
    ¬ StageStatus.skipped ∈ agentStatusValues.map agentStatusToSpec ∧
    ¬ StageStatus.skipped ∈ wsStatusValues.map wsStatusToSpec := by
  decide

/-- C3 (amended): every per-stage status value observable at the public
interface (per-stage records and per-stage events) is drawn from the set
{Pending, Running, Completed, Failed, Skipped} — indeed from its subsets
{Pending, Running, Completed, Failed} for records and
{Running, Completed, Failed} for events — but the Skipped value is not
representable at this interface and is therefore not reachable (the
enumerations `agentStatusValues` and `wsStatusValues` are complete). -/
theorem c3_observable_status_vocabulary :
    (∀ v : AgentStatusValue, v ∈ agentStatusValues) ∧
    (∀ w : WsStatus, w ∈ wsStatusValues) ∧
    (∀ v : AgentStatusValue, agentStatusToSpec v ∈
      [StageStatus.pending, StageStatus.running, StageStatus.completed,
        StageStatus.failed]) ∧
    (∀ w : WsStatus, wsStatusToSpec w ∈
      [StageStatus.running, StageStatus.completed, StageStatus.failed]) ∧
    (∀ v : AgentStatusValue, agentStatusToSpec v ≠ StageStatus.skipped) ∧
    (∀ w : WsStatus, wsStatusToSpec w ≠ StageStatus.skipped) := by
  refine ⟨fun v => ?_, fun w => ?_, fun v => ?_, fun w => ?_, fun v => ?_,
    fun w => ?_⟩ <;> first
  | cases v <;> decide
  | cases w <;> decide

/-- C5: the synchronous submission call accepts a request text and a
workflow-type identifier and returns the backend's terminal snapshot whole
(the `WorkflowResult`, with id, status, final output, per-stage steps and
aggregated metrics), not a projection of it; and such a snapshot carries
strictly more information than an identifier — two distinct snapshots can
share a workflow id. -/
theorem c5_sync_returns_full_snapshot :
    (∀ backend userInput workflowType,
      executeWorkflow backend userInput workflowType
        = backend (executeWorkflowRequest userInput workflowType)) ∧
    (∀ userInput workflowType,
      (executeWorkflowRequest userInput workflowType).method = "POST" ∧
      (executeWorkflowRequest userInput workflowType).path = "/workflow/execute" ∧
      (executeWorkflowRequest userInput workflowType).params
        = [("user_input", userInput), ("workflow_type", workflowType)]) ∧
    (∃ r₁ r₂ : WorkflowResult,
      r₁.workflow_id = r₂.workflow_id ∧ r₁.final_output ≠ r₂.final_output) := by
  refine ⟨fun _ _ _ => rfl, fun _ _ => ⟨rfl, rfl, rfl⟩, ?_⟩
  refine ⟨⟨"wf-1", "completed", "q", none, none, "a", none, [],
    ⟨0, 0, 0, 0, 0, 0⟩, "t"⟩,
    ⟨"wf-1", "completed", "q", none, none, "b", none, [],
    ⟨0, 0, 0, 0, 0, 0⟩, "t"⟩, rfl, by decide⟩

/-- C7, counterexample: the claim says instances can be listed filtered by
workflow type, but the client's filter vocabulary is `limit`, `offset`,
`category`, `status` — it has no workflow-type parameter, and even a request
carrying every available filter sends no `type` key. -/
theorem c7_no_workflow_type_filter_cex :
    ¬ "type" ∈ listWorkflowsParamNames ∧
    ¬ "workflow_type" ∈ listWorkflowsParamNames ∧
    (listWorkflowsRequest ⟨some 10, some 0, some "refund", some "completed"⟩).params
      = [("limit", "10"), ("offset", "0"), ("category", "refund"),
          ("status", "completed")] := by
  refine ⟨by decide, by decide, rfl⟩

/-- C7 (amended): the query interface supports fetching one workflow
instance by its id (GET `/workflows/{id}`, returned whole) and listing
instances filtered by category, by status, and by offset/limit pagination;
every query parameter sent is drawn from that filter vocabulary and each
provided filter is sent. -/
theorem c7_query_interface :
    (∀ backend workflowId,
      getWorkflow backend workflowId = backend (getWorkflowRequest workflowId)) ∧
    (∀ workflowId, (getWorkflowRequest workflowId).method = "GET" ∧
      (getWorkflowRequest workflowId).path = "/workflows/" ++ workflowId) ∧
    (∀ p, ((listWorkflowsRequest p).params.map Prod.fst) ⊆ listWorkflowsParamNames) ∧
    (∀ p c, p.category = some c → ("category", c) ∈ (listWorkflowsRequest p).params) ∧
    (∀ p st, p.status = some st → ("status", st) ∈ (listWorkflowsRequest p).params) ∧
    (∀ p n, p.limit = some n →
      ("limit", toString n) ∈ (listWorkflowsRequest p).params) ∧
    (∀ p n, p.offset = some n →
      ("offset", toString n) ∈ (listWorkflowsRequest p).params) := by
  refine ⟨fun _ _ => rfl, fun _ => ⟨rfl, rfl⟩, fun p => ?_,
    fun p c h => ?_, fun p st h => ?_, fun p n h => ?_, fun p n h => ?_⟩
  · rcases p with ⟨l, o, c, st⟩
    cases l <;> cases o <;> cases c <;> cases st <;>
      simp [listWorkflowsRequest, listWorkflowsParamNames, List.subset_def]
  · rcases p with ⟨l, o, c', st⟩
    cases h
    cases l <;> cases o <;> cases st <;> simp [listWorkflowsRequest]
  · rcases p with ⟨l, o, c, st'⟩
    cases h
    cases l <;> cases o <;> cases c <;> simp [listWorkflowsRequest]
  · rcases p with ⟨l, o, c, st⟩
    cases h
    cases o <;> cases c <;> cases st <;> simp [listWorkflowsRequest]
  · rcases p with ⟨l, o, c, st⟩
    cases h
    cases l <;> cases c <;> cases st <;> simp [listWorkflowsRequest]

/-- Concrete instantiation of `c7_query_interface`: a fully filtered list
request sends each of its four filters. -/
theorem c7_query_interface_witness :
    ((⟨some 10, some 0, some "refund", some "completed"⟩ :
        ListWorkflowsParams).category = some "refund" ∧
      ("category", "refund") ∈
        (listWorkflowsRequest ⟨some 10, some 0, some "refund", some "completed"⟩).params) ∧
    ((⟨some 10, some 0, some "refund", some "completed"⟩ :
        ListWorkflowsParams).status = some "completed" ∧
      ("status", "completed") ∈
        (listWorkflowsRequest ⟨some 10, some 0, some "refund", some "completed"⟩).params) :=
  ⟨⟨rfl, c7_query_interface.2.2.2.1
      ⟨some 10, some 0, some "refund", some "completed"⟩ "refund" rfl⟩,
   ⟨rfl, c7_query_interface.2.2.2.2.1
      ⟨some 10, some 0, some "refund", some "completed"⟩ "completed" rfl⟩⟩

/-- C8: a subscriber that connects after every event of a workflow has
already been published receives nothing for that workflow (no replay),
whereas fetching by id through the query interface reads only the instance
store and is therefore independent of when — or whether — the subscriber
observed the event stream; a from-start subscriber receives exactly the
workflow's events. -/
theorem c8_late_subscriber (ps : PublisherState) (wid : String) (t : Nat)
    (hdone : ∀ e ∈ ps.trace.drop t, e.workflow_id ≠ wid) :
    receivedFrom ps.trace wid t = [] ∧
    (∀ trace2 : List EventMsg,
      queryInstance ⟨trace2, ps.store⟩ wid = queryInstance ps wid) ∧
    receivedFrom ps.trace wid 0
      = ps.trace.filter fun e => e.workflow_id == wid := by
  refine ⟨?_, fun _ => rfl, by simp [receivedFrom]⟩
  rw [receivedFrom, List.filter_eq_nil_iff]
  intro e he
  simpa using hdone e he

/-- Concrete instantiation of `c8_late_subscriber`: a subscriber for
`wf-1` connecting after `wf-1` completed (position 2 of `demoTrace`)
receives no events. -/
theorem c8_late_subscriber_witness :
    (∀ e ∈ ((⟨demoTrace, []⟩ : PublisherState)).trace.drop 2,
      e.workflow_id ≠ "wf-1") ∧
    receivedFrom ((⟨demoTrace, []⟩ : PublisherState)).trace "wf-1" 2 = [] :=
  ⟨by decide, (c8_late_subscriber ⟨demoTrace, []⟩ "wf-1" 2 (by decide)).1⟩

/-- Helper: `findDup` returns no duplicate exactly when the name list has
no duplicates. -/
lemma findDup_eq_none_iff (l : List String) : findDup l = none ↔ l.Nodup := by
  induction l with
  | nil => simp [findDup]
  | cons n rest ih =>
    by_cases h : rest.contains n
    · rw [findDup, if_pos h]
      simp only [List.nodup_cons]
      constructor
      · intro hc; cases hc
      · rintro ⟨hn, -⟩
        exact absurd (by simpa using h) hn
    · rw [findDup, if_neg h]
      have hn : n ∉ rest := by simpa using h
      simp [List.nodup_cons, hn, ih]

/-- Helper: when `findUnknown` reports nothing, every dependency names a
stage of the list. -/
lemma findUnknown_eq_none (defs : List StageDef)
    (h : findUnknown defs = none) : ¬ HasUnknownDep defs := by
  rintro ⟨s, hs, d, hd, hall⟩
  rw [findUnknown, List.findSome?_eq_none_iff] at h
  have hmap := h s hs
  rw [Option.map_eq_none'] at hmap
  rw [List.find?_eq_none] at hmap
  have hne := hmap d hd
  simp only [Bool.not_eq_true, Bool.not_eq_false', List.any_eq_true,
    beq_iff_eq] at hne
  obtain ⟨t, ht, hteq⟩ := hne
  exact hall t ht hteq

/-- Helper: a stuck set keeps topological elimination from ever emptying
the pending list, so `topoCheck` answers `false` (as long as stage names
are not duplicated). -/
lemma topoCheck_stuck (cyc : List String) :
    ∀ (fuel : Nat) (done : List String) (pending : List StageDef),
      (pending.map (·.name)).Nodup →
      (∀ n ∈ cyc, n ∉ done) →
      cyc ≠ [] →
      (∀ n ∈ cyc, ∃ s ∈ pending, s.name = n ∧ ∃ d ∈ s.deps, d ∈ cyc) →
      topoCheck done pending fuel = false := by
  intro fuel
  induction fuel with
  | zero =>
    intro done pending hnd hdone hne hwit
    cases pending with
    | nil =>
      obtain ⟨n, hn⟩ := List.exists_mem_of_ne_nil cyc hne
      obtain ⟨s, hs, -⟩ := hwit n hn
      exact absurd hs (List.not_mem_nil s)
    | cons p ps => rfl
  | succ fuel ih =>
    intro done pending hnd hdone hne hwit
    cases pending with
    | nil =>
      obtain ⟨n, hn⟩ := List.exists_mem_of_ne_nil cyc hne
      obtain ⟨s, hs, -⟩ := hwit n hn
      exact absurd hs (List.not_mem_nil s)
    | cons p ps =>
      have hstep : topoCheck done (p :: ps) (fuel + 1)
          = match (p :: ps).find? (fun s => s.deps.all fun d => done.contains d) with
            | none => false
            | some s => topoCheck (s.name :: done) ((p :: ps).erase s) fuel := rfl
      rw [hstep]
      cases hf : (p :: ps).find? (fun s => s.deps.all fun d => done.contains d) with
      | none => rfl
      | some s0 =>
        have hs0mem : s0 ∈ p :: ps := List.mem_of_find?_eq_some hf
        have hs0deps : ∀ d ∈ s0.deps, d ∈ done := by
          have hp := List.find?_some hf
          rw [List.all_eq_true] at hp
          intro d hd
          simpa using hp d hd
        have hwit2 : ∀ n ∈ cyc, ∃ s ∈ (p :: ps).erase s0,
            s.name = n ∧ ∃ d ∈ s.deps, d ∈ cyc := by
          intro n hn
          obtain ⟨s, hs, hsname, d, hd, hdc⟩ := hwit n hn
          have hneq : s ≠ s0 := by
            intro he; subst he
            exact hdone d hdc (hs0deps d hd)
          exact ⟨s, (List.mem_erase_of_ne hneq).mpr hs, hsname, d, hd, hdc⟩
        have hs0name : s0.name ∉ cyc := by
          intro hmem
          obtain ⟨s, hs, hsname, d, hd, hdc⟩ := hwit s0.name hmem
          have hneq : s ≠ s0 := by
            intro he; subst he
            exact hdone d hdc (hs0deps d hd)
          exact hneq (List.inj_on_of_nodup_map hnd hs hs0mem (by rw [hsname]))
        apply ih
        · exact List.Nodup.sublist
            ((List.erase_sublist s0 (p :: ps)).map (·.name)) hnd
        · intro n hn hmem
          rcases List.mem_cons.mp hmem with he | hc
          · exact hs0name (he ▸ hn)
          · exact hdone n hn hc
        · exact hne
        · exact hwit2

/-- Helper: along a dependency chain that closes back on `m`, every element
steps to another chain element or to `m`. -/
lemma chain_closing_step {R : String → String → Prop} :
    ∀ (n : String) (rest : List String) (m : String),
      List.Chain R n rest →
      R ((n :: rest).getLast (List.cons_ne_nil n rest)) m →
      ∀ a ∈ n :: rest, ∃ b, (b ∈ n :: rest ∨ b = m) ∧ R a b := by
  intro n rest
  induction rest generalizing n with
  | nil =>
    intro m hch hcl a ha
    rw [List.mem_singleton] at ha
    subst ha
    exact ⟨m, Or.inr rfl, by simpa using hcl⟩
  | cons r rest ih =>
    intro m hch hcl a ha
    rw [List.chain_cons] at hch
    obtain ⟨hnr, hch2⟩ := hch
    have hlast : (n :: r :: rest).getLast (List.cons_ne_nil n (r :: rest))
        = (r :: rest).getLast (List.cons_ne_nil r rest) :=
      List.getLast_cons (List.cons_ne_nil r rest)
    rcases List.mem_cons.mp ha with rfl | ha2
    · exact ⟨r, Or.inl (List.mem_cons_of_mem a (List.mem_cons_self r rest)), hnr⟩
    · obtain ⟨b, hb, hr⟩ := ih r m hch2 (by rw [← hlast]; exact hcl) a ha2
      refine ⟨b, ?_, hr⟩
      rcases hb with hb | hb
      · exact Or.inl (List.mem_cons_of_mem n hb)
      · exact Or.inr hb

/-- Helper: every dependency cycle yields a stuck set (its own set of
names). -/
lemma isDepCycle_stuckSet {defs : List StageDef} {cyc : List String}
    (h : IsDepCycle defs cyc) : StuckSet defs cyc := by
  cases cyc with
  | nil => rw [IsDepCycle] at h; exact h.elim
  | cons n rest =>
    rw [IsDepCycle] at h
    obtain ⟨hch, hcl⟩ := h
    refine ⟨List.cons_ne_nil n rest, ?_⟩
    intro a ha
    obtain ⟨b, hb, hR⟩ := chain_closing_step n rest n hch hcl a ha
    have hbmem : b ∈ n :: rest := by
      rcases hb with hb | hb
      · exact hb
      · exact hb ▸ List.mem_cons_self n rest
    obtain ⟨s, hs, hsname, hdep⟩ := hR
    exact ⟨s, hs, hsname, b, hdep, hbmem⟩

/-- C4: constructing a graph from a declarative stage list that contains a
dependency cycle or a dependency referencing an unknown stage name always
fails with a `GraphError` and leaves the stage registry unchanged — no
stage is registered. -/
theorem c4_graph_validation (registry defs : List StageDef)
    (h : HasCycle defs ∨ HasUnknownDep defs) :
    (buildGraph registry defs).2.isSome ∧
    (buildGraph registry defs).1 = registry := by
  have hv : validate defs ≠ none := by
    intro hnone
    rw [validate] at hnone
    cases hd : findDup (defs.map (·.name)) with
    | some n => rw [hd] at hnone; cases hnone
    | none =>
      rw [hd] at hnone
      cases hu : findUnknown defs with
      | some sd =>
        obtain ⟨s, d⟩ := sd
        rw [hu] at hnone
        cases hnone
      | none =>
        rw [hu] at hnone
        cases htc : topoCheck [] defs defs.length with
        | false => rw [htc] at hnone; simp at hnone
        | true =>
          rcases h with hc | hud
          · obtain ⟨cyc, hcyc⟩ := hc
            have hst := isDepCycle_stuckSet hcyc
            have hnd : (defs.map (·.name)).Nodup :=
              (findDup_eq_none_iff _).mp hd
            have hfalse := topoCheck_stuck cyc defs.length [] defs hnd
              (by simp) hst.1 hst.2
            rw [htc] at hfalse
            cases hfalse
          · exact findUnknown_eq_none defs hu hud
  cases he : validate defs with
  | none => exact absurd he hv
  | some e =>
    rw [buildGraph, he]
    exact ⟨rfl, rfl⟩

/-- Concrete instantiation of `c4_graph_validation`: the two-stage cyclic
list `a ↔ b` fails construction and leaves the one-entry registry
untouched. -/
theorem c4_graph_validation_witness :
    (HasCycle cyclicDefs ∨ HasUnknownDep cyclicDefs) ∧
    (buildGraph demoRegistry cyclicDefs).2.isSome ∧
    (buildGraph demoRegistry cyclicDefs).1 = demoRegistry :=
  have hab : DepStep cyclicDefs "a" "b" :=
    ⟨⟨"a", ["b"]⟩, by decide, rfl, by decide⟩
  have hba : DepStep cyclicDefs "b" "a" :=
    ⟨⟨"b", ["a"]⟩, by decide, rfl, by decide⟩
  have hcyc : HasCycle cyclicDefs :=
    ⟨["a", "b"], ⟨List.Chain.cons hab List.Chain.nil, hba⟩⟩
  ⟨Or.inl hcyc, c4_graph_validation demoRegistry cyclicDefs (Or.inl hcyc)⟩

/-- Helper: projection of the launch log of one round. -/
lemma runRound_launches (g : List StageDef)
    (oracle : String → Option StageResult) (st : RunState)
    (rdy : List StageDef) :
    (runRound g oracle st rdy).launches
      = st.launches ++ rdy.map (fun s =>
          LaunchEvent.mk s.name (s.deps.map fun d => (d, st.status d))) := rfl

/-- Helper: projection of the context of one round. -/
lemma runRound_ctx (g : List StageDef)
    (oracle : String → Option StageResult) (st : RunState)
    (rdy : List StageDef) :
    (runRound g oracle st rdy).ctx
      = st.ctx ++ rdy.filterMap (fun s =>
          (oracle s.name).map fun r => (s.name, r)) := rfl

/-- Helper: projection of the status map of one round. -/
lemma runRound_status (g : List StageDef)
    (oracle : String → Option StageResult) (st : RunState)
    (rdy : List StageDef) :
    (runRound g oracle st rdy).status
      = applySkips
          (dependentsClosure g g.length
            (((rdy.filter fun s => (oracle s.name).isNone).map (·.name))))
          (resolveStatus oracle rdy st.status) := rfl

/-- Helper: skip-marking never touches a Completed stage. -/
lemma applySkips_completed_iff (skips : List String)
    (st : String → StageStatus) (m : String) :
    applySkips skips st m = StageStatus.completed ↔
      st m = StageStatus.completed := by
  rw [applySkips]
  by_cases h : skips.contains m ∧ st m = StageStatus.pending
  · rw [if_pos h]
    constructor
    · intro hc; cases hc
    · intro hc; rw [h.2] at hc; cases hc
  · rw [if_neg h]

/-- Helper: resolution leaves an unlaunched stage alone. -/
lemma resolveStatus_neg {rdy : List StageDef} {n : String}
    (oracle : String → Option StageResult) (st : String → StageStatus)
    (h : ¬ rdy.any (fun s => s.name == n) = true) :
    resolveStatus oracle rdy st n = st n := by
  simp only [resolveStatus, if_neg h]

/-- Helper: resolution of a launched stage follows the oracle. -/
lemma resolveStatus_pos {rdy : List StageDef} {n : String}
    (oracle : String → Option StageResult) (st : String → StageStatus)
    (h : rdy.any (fun s => s.name == n) = true) :
    resolveStatus oracle rdy st n
      = match oracle n with
        | some _ => StageStatus.completed
        | none => StageStatus.failed := by
  simp only [resolveStatus, if_pos h]

/-- Helper: one round preserves both scheduler invariants, provided the
launched set consists of Pending stages whose dependencies are all
Completed. -/
lemma runRound_inv (g : List StageDef) (oracle : String → Option StageResult)
    (st : RunState) (rdy : List StageDef)
    (hrdy : ∀ s ∈ rdy, st.status s.name = StageStatus.pending ∧
      ∀ d ∈ s.deps, st.status d = StageStatus.completed)
    (hL : LaunchInv st) (hC : CtxInv st) :
    LaunchInv (runRound g oracle st rdy) ∧ CtxInv (runRound g oracle st rdy) := by
  have hnotrdy : ∀ m, st.status m = StageStatus.completed →
      ¬ rdy.any (fun s => s.name == m) = true := by
    intro m hm hany
    rw [List.any_eq_true] at hany
    obtain ⟨s, hs, hbeq⟩ := hany
    have hname : s.name = m := by simpa using hbeq
    have := (hrdy s hs).1
    rw [hname, hm] at this
    cases this
  refine ⟨?_, ?_, ?_⟩
  · intro ev hev p hp
    rw [runRound_launches, List.mem_append] at hev
    rcases hev with hev | hev
    · exact hL ev hev p hp
    · rw [List.mem_map] at hev
      obtain ⟨s, hs, rfl⟩ := hev
      rw [List.mem_map] at hp
      obtain ⟨d, hd, rfl⟩ := hp
      exact (hrdy s hs).2 d hd
  · intro p hp
    rw [runRound_ctx, List.mem_append] at hp
    rw [runRound_status, applySkips_completed_iff]
    rcases hp with hp | hp
    · have hm := hC.1 p hp
      rw [resolveStatus_neg oracle st.status (hnotrdy p.1 hm)]
      exact hm
    · rw [List.mem_filterMap] at hp
      obtain ⟨s, hs, hsome⟩ := hp
      rw [Option.map_eq_some'] at hsome
      obtain ⟨r, hor, hpr⟩ := hsome
      have hany : rdy.any (fun t => t.name == p.1) = true := by
        rw [List.any_eq_true]
        exact ⟨s, hs, by rw [← hpr]; simp⟩
      rw [resolveStatus_pos oracle st.status hany, ← hpr]
      simp only
      rw [hor]
  · intro n hn
    rw [runRound_status, applySkips_completed_iff] at hn
    rw [runRound_ctx]
    by_cases hany : rdy.any (fun s => s.name == n) = true
    · rw [resolveStatus_pos oracle st.status hany] at hn
      cases ho : oracle n with
      | none => rw [ho] at hn; cases hn
      | some r =>
        refine ⟨r, ?_⟩
        rw [List.mem_append, List.mem_filterMap]
        rw [List.any_eq_true] at hany
        obtain ⟨s, hs, hbeq⟩ := hany
        have hname : s.name = n := by simpa using hbeq
        exact Or.inr ⟨s, hs, by rw [hname, ho]; rfl⟩
    · rw [resolveStatus_neg oracle st.status hany] at hn
      obtain ⟨r, hr⟩ := hC.2 n hn
      exact ⟨r, List.mem_append.mpr (Or.inl hr)⟩

/-- Helper: membership in the ready set gives a Pending stage whose
dependencies are all Completed. -/
lemma mem_readySet (g : List StageDef) (st : String → StageStatus)
    (s : StageDef) (hs : s ∈ readySet g st) :
    st s.name = StageStatus.pending ∧
      ∀ d ∈ s.deps, st d = StageStatus.completed := by
  rw [readySet, List.mem_filter] at hs
  obtain ⟨-, hpred⟩ := hs
  rw [Bool.and_eq_true] at hpred
  obtain ⟨h1, h2⟩ := hpred
  refine ⟨of_decide_eq_true h1, ?_⟩
  intro d hd
  rw [List.all_eq_true] at h2
  exact of_decide_eq_true (h2 d hd)

/-- Helper: the scheduling loop preserves both scheduler invariants. -/
lemma runRounds_inv (g : List StageDef)
    (oracle : String → Option StageResult) :
    ∀ (fuel : Nat) (st : RunState), LaunchInv st → CtxInv st →
      LaunchInv (runRounds g oracle fuel st) ∧
        CtxInv (runRounds g oracle fuel st) := by
  intro fuel
  induction fuel with
  | zero => intro st hL hC; exact ⟨hL, hC⟩
  | succ fuel ih =>
    intro st hL hC
    have hstep : runRounds g oracle (fuel + 1) st
        = match readySet g st.status with
          | [] => st
          | s :: rest => runRounds g oracle fuel
              (runRound g oracle st (s :: rest)) := rfl
    rw [hstep]
    cases hr : readySet g st.status with
    | nil => exact ⟨hL, hC⟩
    | cons s rest =>
      have hrdy : ∀ t ∈ s :: rest, st.status t.name = StageStatus.pending ∧
          ∀ d ∈ t.deps, st.status d = StageStatus.completed := by
        intro t ht
        exact mem_readySet g st.status t (hr ▸ ht)
      obtain ⟨hL2, hC2⟩ := runRound_inv g oracle st (s :: rest) hrdy hL hC
      exact ih _ hL2 hC2

/-- Helper: both scheduler invariants hold of a whole orchestration run. -/
lemma execute_inv (g : List StageDef)
    (oracle : String → Option StageResult) :
    LaunchInv (execute g oracle) ∧ CtxInv (execute g oracle) := by
  apply runRounds_inv
  · intro ev hev; cases hev
  · constructor
    · intro p hp; cases hp
    · intro n hn
      simp only [initStatus] at hn
      cases hn

/-- C1: for every stage graph, every outcome oracle and every launch the
scheduler ever records, each declared dependency of the launched stage had
status Completed at the moment of the launch. -/
theorem c1_launch_requires_completed_deps
    (g : List StageDef) (oracle : String → Option StageResult)
    (ev : LaunchEvent) (hev : ev ∈ (execute g oracle).launches)
    (p : String × StageStatus) (hp : p ∈ ev.depStatuses) :
    p.2 = StageStatus.completed :=
  (execute_inv g oracle).1 ev hev p hp

/-- Concrete instantiation of `c1_launch_requires_completed_deps`: in the
all-success demonstration run the researcher stage is launched with its
classifier dependency observed Completed. -/
theorem c1_launch_requires_completed_deps_witness :
    ((⟨"researcher", [("classifier", StageStatus.completed)]⟩ : LaunchEvent)
        ∈ (execute workflowGraph demoOracle).launches) ∧
    (("classifier", StageStatus.completed)
        ∈ [("classifier", StageStatus.completed)]) ∧
    ("classifier", StageStatus.completed).2 = StageStatus.completed :=
  ⟨by decide, by decide,
   c1_launch_requires_completed_deps workflowGraph demoOracle
     ⟨"researcher", [("classifier", StageStatus.completed)]⟩ (by decide)
     ("classifier", StageStatus.completed) (by decide)⟩

/-- C2: the workflow graph consists of exactly the five stages classifier,
researcher, validator, writer, qa with edges classifier→researcher,
classifier→validator, researcher→writer, validator→writer, writer→qa;
classifier has no dependencies; qa is the single stage with no outgoing
edge, is the designated terminal stage, and its recorded output becomes the
workflow's final output. -/
theorem c2_five_stage_graph :
    workflowGraph.map (·.name) = canvasNodes ∧
    canvasNodes = ["classifier", "researcher", "validator", "writer", "qa"] ∧
    canvasEdges = [("classifier", "researcher"), ("classifier", "validator"),
      ("researcher", "writer"), ("validator", "writer"), ("writer", "qa")] ∧
    (∀ s ∈ workflowGraph, s.deps = canvasDeps s.name) ∧
    canvasDeps "classifier" = [] ∧
    (∀ n ∈ canvasNodes,
      ((canvasEdges.filter fun e => e.1 == n) = [] ↔ n = terminalStage)) ∧
    terminalStage = "qa" ∧
    finalOutput workflowGraph demoOracle = some "final qa answer" :=
  ⟨rfl, rfl, rfl, by decide, rfl, by decide, rfl, by decide⟩

/-- Concrete instantiation of `c2_five_stage_graph`: among the five nodes,
qa — and only qa — has no outgoing edge. -/
theorem c2_five_stage_graph_witness :
    ("qa" ∈ canvasNodes ∧
      ((canvasEdges.filter fun e => e.1 == "qa") = [] ↔ "qa" = terminalStage)) ∧
    ("writer" ∈ canvasNodes ∧
      ((canvasEdges.filter fun e => e.1 == "writer") = []
        ↔ "writer" = terminalStage)) :=
  ⟨⟨by decide, c2_five_stage_graph.2.2.2.2.2.1 "qa" (by decide)⟩,
   ⟨by decide, c2_five_stage_graph.2.2.2.2.2.1 "writer" (by decide)⟩⟩

/-- C6: the workflow-level confidence metric is the arithmetic mean of the
confidences of exactly the stages that reached Completed — the context the
aggregator folds over records precisely the Completed stages, so Skipped
and Failed stages contribute nothing — and on the four dependent-stage
results of scenario A with confidences 0.9, 0.8, 0.85, 0.95 the reported
mean is 0.875 = 7/8 with a stage count of 4. -/
theorem c6_confidence_mean_over_completed :
    (∀ results : List StageResult, results ≠ [] →
      (foldMetrics results).avg_confidence
        = (results.map (·.confidence)).sum / results.length) ∧
    (∀ (g : List StageDef) (oracle : String → Option StageResult),
      ∀ p ∈ (execute g oracle).ctx,
        (execute g oracle).status p.1 = StageStatus.completed) ∧
    (∀ (g : List StageDef) (oracle : String → Option StageResult) (n : String),
      (execute g oracle).status n = StageStatus.completed →
        ∃ r, (n, r) ∈ (execute g oracle).ctx) ∧
    (∀ (g : List StageDef) (oracle : String → Option StageResult),
      runMetrics g oracle = foldMetrics ((execute g oracle).ctx.map (·.2))) ∧
    (foldMetrics demoAResults).avg_confidence = 7 / 8 ∧
    (foldMetrics demoAResults).agents_used = 4 := by
  refine ⟨fun results h => ?_, fun g oracle => (execute_inv g oracle).2.1,
    fun g oracle => (execute_inv g oracle).2.2, fun g oracle => rfl, ?_, rfl⟩
  · rw [foldMetrics]
    simp only
    rw [if_neg (by simpa [List.length_eq_zero] using h)]
  · show (if demoAResults.length = 0 then 0
      else (demoAResults.map (·.confidence)).sum / demoAResults.length) = 7 / 8
    norm_num [demoAResults]

/-- Concrete instantiation of `c6_confidence_mean_over_completed`: the mean
over the four scenario-A results, and the writer stage of the demonstration
run being Completed with its result recorded in the context. -/
theorem c6_confidence_mean_over_completed_witness :
    (demoAResults ≠ [] ∧
      (foldMetrics demoAResults).avg_confidence
        = (demoAResults.map (·.confidence)).sum / demoAResults.length) ∧
    ((execute workflowGraph demoOracle).status "writer" = StageStatus.completed ∧
      ∃ r, ("writer", r) ∈ (execute workflowGraph demoOracle).ctx) :=
  ⟨⟨by simp [demoAResults],
    c6_confidence_mean_over_completed.1 demoAResults (by simp [demoAResults])⟩,
   ⟨by decide,
    c6_confidence_mean_over_completed.2.2.1 workflowGraph demoOracle "writer"
      (by decide)⟩⟩

end MultiAgent
